import Mathlib

/-!
Shallow embedding of src/src/views/admin/InstitutionsManagement.tsx.

The component manages a list of institution records (name + 6-character
faculty code + store-assigned id).  Its logic is embedded here as pure
functions: React state updates become explicit state passing, and the
remote Firestore operations become parameters describing the outcome of
the single remote call each handler performs.

JavaScript string primitives used by the source (trim, toLowerCase,
toUpperCase, includes, length) are modelled over the character list of a
Lean String; case conversion is basic-latin, matching Char.toLower /
Char.toUpper.
-/

namespace InstitutionsManagement

/-- The FacultyCode record shape (interface FacultyCode).  The source
accesses both fields defensively (optional chaining and a fallback to the
empty string), so both are modelled as optional. -/
structure FacultyCode where
  institution : Option String
  facultyCode : Option String
deriving DecidableEq

/-- interface FacultyCodeWithId extends FacultyCode with a store-assigned id. -/
structure FacultyCodeWithId extends FacultyCode where
  id : String
deriving DecidableEq

/-- The add/edit form state (formData). -/
structure FormData where
  institution : String
  facultyCode : String
deriving DecidableEq

/-- type SortOption: the four declared options, plus one constructor
modelling a runtime value outside the declared union (the switch's
default branch; TypeScript types are erased at runtime). -/
inductive SortOption where
  | alphabetical
  | reverseAlphabetical
  | codeAsc
  | codeDesc
  | other
deriving DecidableEq

/-- JavaScript String.prototype.trim: drop leading and trailing whitespace. -/
def jsTrim (s : String) : String :=
  ⟨((s.data.dropWhile Char.isWhitespace).reverse.dropWhile Char.isWhitespace).reverse⟩

/-- JavaScript String.prototype.toLowerCase (basic-latin model). -/
def jsToLower (s : String) : String :=
  ⟨s.data.map Char.toLower⟩

/-- JavaScript String.prototype.toUpperCase (basic-latin model). -/
def jsToUpper (s : String) : String :=
  ⟨s.data.map Char.toUpper⟩

/-- JavaScript String.prototype.includes: substring containment. -/
def jsIncludes (s sub : String) : Bool :=
  decide (sub.data <:+: s.data)

/-- JavaScript String.prototype.length (code-unit count, modelled as
character count). -/
def jsLength (s : String) : Nat :=
  s.data.length

/-- isCodeUnique (lines 129-133): no record carries this exact code,
except possibly the record whose id is excludeId.  The comparison
inst.facultyCode === code is exact string equality (a record with a
missing code never matches a string), and inst.id !== excludeId is false
only when excludeId is present and equal. -/
def isCodeUnique (institutions : List FacultyCodeWithId) (code : String)
    (excludeId : Option String) : Bool :=
  !(institutions.any fun inst =>
      (inst.facultyCode == some code) && (some inst.id != excludeId))

/-- filterInstitutions (lines 105-116). -/
def filterInstitutions (institutionsList : List FacultyCodeWithId)
    (search : String) : List FacultyCodeWithId :=
  if (jsTrim search).isEmpty then institutionsList
  else
    let searchLower := jsToLower search
    institutionsList.filter fun inst =>
      (match inst.institution with
       | some s => jsIncludes (jsToLower s) searchLower
       | none => false)
      ||
      (match inst.facultyCode with
       | some s => jsIncludes (jsToLower s) searchLower
       | none => false)

/-- sortInstitutions (lines 77-102).  Array.prototype.sort with a
comparator is modelled as a stable merge sort ordered by "comparator
result ≤ 0"; cmp abstracts String.prototype.localeCompare (only the sign
of its result matters). -/
def sortInstitutions (cmp : String → String → Int)
    (institutionsList : List FacultyCodeWithId) (option : SortOption) :
    List FacultyCodeWithId :=
  match option with
  | .alphabetical =>
      institutionsList.mergeSort fun a b =>
        decide (cmp (a.institution.getD "") (b.institution.getD "") ≤ 0)
  | .reverseAlphabetical =>
      institutionsList.mergeSort fun a b =>
        decide (cmp (b.institution.getD "") (a.institution.getD "") ≤ 0)
  | .codeAsc =>
      institutionsList.mergeSort fun a b =>
        decide (cmp (a.facultyCode.getD "") (b.facultyCode.getD "") ≤ 0)
  | .codeDesc =>
      institutionsList.mergeSort fun a b =>
        decide (cmp (b.facultyCode.getD "") (a.facultyCode.getD "") ≤ 0)
  | .other => institutionsList

/-- handleGenerateNewCode (lines 144-151): call the generator, and while
the produced code collides with the loaded set, call it again; store the
first unique code into the form.  The successive generator outputs are
modelled as a stream gen : Nat → String; the loop is unbounded, so
termination needs the hypothesis that some output is unique, and the
result is the output at the first such index. -/
def handleGenerateNewCode (institutions : List FacultyCodeWithId)
    (formData : FormData) (gen : Nat → String)
    (h : ∃ n, isCodeUnique institutions (gen n) none = true) : FormData :=
  { formData with facultyCode := gen (Nat.find h) }

/-- Inline validation messages of the source. -/
def msgNameRequired : String := "El nombre de la institución es requerido"

def msgCodeLength : String := "El código debe tener exactamente 6 caracteres"

def msgCodeDuplicate : String := "Este código ya está en uso"

def msgAddFailed : String := "Error al crear la institución. Por favor intenta de nuevo."

def msgEditFailed : String := "Error al actualizar la institución. Por favor intenta de nuevo."

/-- Component state observable after an add/edit handler returns:
the institutions list, the inline form error, the payload passed to the
remote write (none when no remote call was issued), and whether the
modal is still open (the handler closes it exactly on success). -/
structure WriteState where
  institutions : List FacultyCodeWithId
  formError : String
  remoteWrite : Option FacultyCode
  modalOpen : Bool
deriving DecidableEq

/-- handleAddInstitution (lines 154-195).  remoteAdd is the outcome of
the single FirestoreService.add call: some docId when it resolves with
the new document id, none when it throws. -/
def handleAddInstitution (institutions : List FacultyCodeWithId)
    (formData : FormData) (remoteAdd : Option String) : WriteState :=
  if (jsTrim formData.institution).isEmpty then
    ⟨institutions, msgNameRequired, none, true⟩
  else if (jsTrim formData.facultyCode).isEmpty || jsLength formData.facultyCode != 6 then
    ⟨institutions, msgCodeLength, none, true⟩
  else if !(isCodeUnique institutions formData.facultyCode none) then
    ⟨institutions, msgCodeDuplicate, none, true⟩
  else
    let newInstitution : FacultyCode :=
      ⟨some (jsTrim formData.institution), some (jsToUpper formData.facultyCode)⟩
    match remoteAdd with
    | some docId =>
        ⟨institutions ++ [⟨newInstitution, docId⟩], "", some newInstitution, false⟩
    | none =>
        ⟨institutions, msgAddFailed, some newInstitution, true⟩

/-- handleEditInstitution (lines 209-265).  formError0 is the inline
error before the call (left untouched when no institution is selected);
remoteUpdate tells whether the single FirestoreService.update call
resolves. -/
def handleEditInstitution (institutions : List FacultyCodeWithId)
    (formError0 : String) (selectedInstitution : Option FacultyCodeWithId)
    (formData : FormData) (remoteUpdate : Bool) : WriteState :=
  match selectedInstitution with
  | none => ⟨institutions, formError0, none, true⟩
  | some sel =>
    if (jsTrim formData.institution).isEmpty then
      ⟨institutions, msgNameRequired, none, true⟩
    else if (jsTrim formData.facultyCode).isEmpty || jsLength formData.facultyCode != 6 then
      ⟨institutions, msgCodeLength, none, true⟩
    else if !(isCodeUnique institutions formData.facultyCode (some sel.id)) then
      ⟨institutions, msgCodeDuplicate, none, true⟩
    else
      let updatedData : FacultyCode :=
        ⟨some (jsTrim formData.institution), some (jsToUpper formData.facultyCode)⟩
      if remoteUpdate then
        ⟨institutions.map fun inst =>
            if inst.id == sel.id then ⟨updatedData, inst.id⟩ else inst,
         "", some updatedData, false⟩
      else
        ⟨institutions, msgEditFailed, some updatedData, true⟩

/-- Component state observable after the delete handler returns. -/
structure DeleteState where
  institutions : List FacultyCodeWithId
  remoteDeleteId : Option String
  alerted : Bool
  modalOpen : Bool
deriving DecidableEq

/-- handleDeleteInstitution (lines 274-298).  remoteDelete tells whether
the single FirestoreService.delete call resolves. -/
def handleDeleteInstitution (institutions : List FacultyCodeWithId)
    (selectedInstitution : Option FacultyCodeWithId) (remoteDelete : Bool) :
    DeleteState :=
  match selectedInstitution with
  | none => ⟨institutions, none, false, true⟩
  | some sel =>
    if remoteDelete then
      ⟨institutions.filter (fun inst => inst.id != sel.id), some sel.id, false, false⟩
    else
      ⟨institutions, some sel.id, true, true⟩

/-- Component state observable after fetchInstitutions returns. -/
structure FetchState where
  institutions : List FacultyCodeWithId
  isLoading : Bool
  errorLogged : Bool
  formError : String
deriving DecidableEq

/-- fetchInstitutions (lines 56-70).  The handler issues exactly one
getAll call (no retry); its outcome is the getAll parameter.  formError0
is the inline error state before the call, which the handler never
touches. -/
def fetchInstitutions (formError0 : String)
    (getAll : Except String (List FacultyCodeWithId)) : FetchState :=
  match getAll with
  | .ok data => ⟨data, false, false, formError0⟩
  | .error _ => ⟨[], false, true, formError0⟩

/-- Case-insensitive substring containment, the match notion of the spec:
the needle occurs in the haystack up to letter case. -/
def containsCI (hay needle : String) : Bool :=
  jsIncludes (jsToLower hay) (jsToLower needle)

/-- A record matches a search term when its name or its code contains the
term case-insensitively (a missing field never matches). -/
def matchesCI (search : String) (inst : FacultyCodeWithId) : Bool :=
  (inst.institution.elim false fun s => containsCI s search)
  || (inst.facultyCode.elim false fun s => containsCI s search)

/-- The spec invariant: no two records of the list share a facultyCode. -/
def noDupCodes (l : List FacultyCodeWithId) : Prop :=
  l.Pairwise fun a b => a.facultyCode ≠ b.facultyCode

instance (l : List FacultyCodeWithId) : Decidable (noDupCodes l) :=
  inferInstanceAs (Decidable (l.Pairwise _))

end InstitutionsManagement
namespace InstitutionsManagement

/-- Characterisation of isCodeUnique: it returns true exactly when every
record carrying the given code has the excluded id. -/
theorem isCodeUnique_iff (l : List FacultyCodeWithId) (code : String)
    (excl : Option String) :
    isCodeUnique l code excl = true ↔
      ∀ inst ∈ l, inst.facultyCode = some code → some inst.id = excl := by
  simp [isCodeUnique, List.any_eq_true]

end InstitutionsManagement
namespace InstitutionsManagement

/-- C2: for every record list and search string, filterInstitutions
returns exactly the sublist of records whose name or code contains the
search string case-insensitively, and returns the list unchanged when
the search string is empty or whitespace-only. -/
theorem filterInstitutions_correct (l : List FacultyCodeWithId) (search : String) :
    filterInstitutions l search =
      if (jsTrim search).isEmpty then l else l.filter (matchesCI search) := by
  unfold filterInstitutions
  split
  · rfl
  · apply List.filter_congr
    intro inst _
    cases hi : inst.institution <;> cases hc : inst.facultyCode <;>
      simp [matchesCI, containsCI, hi, hc]

/-- C8: when the single getAll call fails, the institutions list is set
to empty, the error is only logged, and the inline form error is left
untouched. -/
theorem fetchInstitutions_failure (formError0 e : String) :
    fetchInstitutions formError0 (.error e) = ⟨[], false, true, formError0⟩ := rfl

/-- C10: for every comparator, list and option (the default branch
included), sortInstitutions returns a permutation of its input. -/
theorem sortInstitutions_perm (cmp : String → String → Int)
    (l : List FacultyCodeWithId) (o : SortOption) :
    (sortInstitutions cmp l o).Perm l := by
  cases o
  case other => exact List.Perm.refl l
  all_goals exact List.mergeSort_perm l _

/-- A merge sort keyed through k by a transitive, total comparator is
pairwise-ordered by that comparator. -/
theorem pairwise_mergeSort_cmp (c : String → String → Int)
    (htrans : ∀ a b d, c a b ≤ 0 → c b d ≤ 0 → c a d ≤ 0)
    (htotal : ∀ a b, c a b ≤ 0 ∨ c b a ≤ 0)
    (k : FacultyCodeWithId → String) (l : List FacultyCodeWithId) :
    (l.mergeSort fun a b => decide (c (k a) (k b) ≤ 0)).Pairwise
      (fun a b => c (k a) (k b) ≤ 0) := by
  have h := @List.sorted_mergeSort _ (fun a b => decide (c (k a) (k b) ≤ 0))
    (fun a b d hab hbd => by
      simp only [decide_eq_true_eq] at *
      exact htrans _ _ _ hab hbd)
    (fun a b => by
      simp only [Bool.or_eq_true, decide_eq_true_eq]
      exact htotal _ _)
    l
  exact h.imp fun hb => by simpa using hb

/-- C6: for each of the four sort options, the result is ordered by the
comparator on the chosen field and direction (descending swaps the
comparator's arguments; a missing field is treated as the empty string),
for any comparator that is transitive and total, as localeCompare is. -/
theorem sortInstitutions_sorted (cmp : String → String → Int)
    (htrans : ∀ a b d, cmp a b ≤ 0 → cmp b d ≤ 0 → cmp a d ≤ 0)
    (htotal : ∀ a b, cmp a b ≤ 0 ∨ cmp b a ≤ 0)
    (l : List FacultyCodeWithId) :
    (sortInstitutions cmp l .alphabetical).Pairwise
      (fun a b => cmp (a.institution.getD "") (b.institution.getD "") ≤ 0)
    ∧ (sortInstitutions cmp l .reverseAlphabetical).Pairwise
      (fun a b => cmp (b.institution.getD "") (a.institution.getD "") ≤ 0)
    ∧ (sortInstitutions cmp l .codeAsc).Pairwise
      (fun a b => cmp (a.facultyCode.getD "") (b.facultyCode.getD "") ≤ 0)
    ∧ (sortInstitutions cmp l .codeDesc).Pairwise
      (fun a b => cmp (b.facultyCode.getD "") (a.facultyCode.getD "") ≤ 0) :=
  ⟨pairwise_mergeSort_cmp cmp htrans htotal (fun r => r.institution.getD "") l,
   pairwise_mergeSort_cmp (fun x y => cmp y x)
     (fun a b d hab hbd => htrans d b a hbd hab)
     (fun a b => (htotal b a)) (fun r => r.institution.getD "") l,
   pairwise_mergeSort_cmp cmp htrans htotal (fun r => r.facultyCode.getD "") l,
   pairwise_mergeSort_cmp (fun x y => cmp y x)
     (fun a b d hab hbd => htrans d b a hbd hab)
     (fun a b => (htotal b a)) (fun r => r.facultyCode.getD "") l⟩

/-- Length-difference comparator used to instantiate the sort theorem. -/
def lenCmp (a b : String) : Int :=
  (jsLength a : Int) - (jsLength b : Int)

/-- Concrete list used to instantiate the sort theorem. -/
def wSortList : List FacultyCodeWithId :=
  [⟨⟨some "Beta", some "BBBBBB"⟩, "2"⟩, ⟨⟨some "Al", some "AAAAAA"⟩, "1"⟩]

/-- C6 witness: the sortedness theorem applied to a concrete comparator
and list. -/
theorem sortInstitutions_sorted_witness :
    (sortInstitutions lenCmp wSortList .alphabetical).Pairwise
      (fun a b => lenCmp (a.institution.getD "") (b.institution.getD "") ≤ 0)
    ∧ (sortInstitutions lenCmp wSortList .reverseAlphabetical).Pairwise
      (fun a b => lenCmp (b.institution.getD "") (a.institution.getD "") ≤ 0)
    ∧ (sortInstitutions lenCmp wSortList .codeAsc).Pairwise
      (fun a b => lenCmp (a.facultyCode.getD "") (b.facultyCode.getD "") ≤ 0)
    ∧ (sortInstitutions lenCmp wSortList .codeDesc).Pairwise
      (fun a b => lenCmp (b.facultyCode.getD "") (a.facultyCode.getD "") ≤ 0) :=
  sortInstitutions_sorted lenCmp
    (fun a b d hab hbd => by
      simp only [lenCmp, sub_nonpos] at *
      exact le_trans hab hbd)
    (fun a b => by
      simp only [lenCmp, sub_nonpos]
      exact le_total _ _)
    wSortList

end InstitutionsManagement
namespace InstitutionsManagement

/-- C3: the code stored into the form by handleGenerateNewCode satisfies
isCodeUnique, so it never equals the facultyCode of any record in the
current list, assuming the generator eventually produces a unique code. -/
theorem handleGenerateNewCode_unique (institutions : List FacultyCodeWithId)
    (formData : FormData) (gen : Nat → String)
    (h : ∃ n, isCodeUnique institutions (gen n) none = true) :
    isCodeUnique institutions
        ((handleGenerateNewCode institutions formData gen h).facultyCode) none = true
    ∧ ∀ r ∈ institutions,
        r.facultyCode ≠
          some ((handleGenerateNewCode institutions formData gen h).facultyCode) := by
  have hs : isCodeUnique institutions (gen (Nat.find h)) none = true := Nat.find_spec h
  refine ⟨hs, fun r hr hcontra => ?_⟩
  have hx := (isCodeUnique_iff institutions (gen (Nat.find h)) none).mp hs r hr hcontra
  simp at hx

/-- Record list used to instantiate the code-generation theorem. -/
def wGenInsts : List FacultyCodeWithId := [⟨⟨some "Alpha", some "AAAAAA"⟩, "1"⟩]

/-- Generator stream used to instantiate the code-generation theorem:
the first output collides, the second is fresh. -/
def wGen : Nat → String := fun n => if n == 0 then "AAAAAA" else "BBBBBB"

/-- The generator stream eventually produces a unique code. -/
theorem wGenEx : ∃ n, isCodeUnique wGenInsts (wGen n) none = true := ⟨1, by decide⟩

/-- C3 witness: the code-generation theorem applied to a concrete list
and generator stream. -/
theorem handleGenerateNewCode_unique_witness :
    isCodeUnique wGenInsts
        ((handleGenerateNewCode wGenInsts ⟨"", ""⟩ wGen wGenEx).facultyCode) none = true
    ∧ ∀ r ∈ wGenInsts,
        r.facultyCode ≠
          some ((handleGenerateNewCode wGenInsts ⟨"", ""⟩ wGen wGenEx).facultyCode) :=
  handleGenerateNewCode_unique wGenInsts ⟨"", ""⟩ wGen wGenEx

/-- C4 counterexample: the form code exactly equals an existing record's
code, yet because the name field is blank the handler reports the
name-required error, not the duplicate-code error. -/
theorem handleAddInstitution_duplicate_counterexample :
    (⟨⟨some "Escuela", some "XY12AB"⟩, "1"⟩ : FacultyCodeWithId).facultyCode
        = some (FormData.mk "" "XY12AB").facultyCode
    ∧ (handleAddInstitution [⟨⟨some "Escuela", some "XY12AB"⟩, "1"⟩]
        ⟨"", "XY12AB"⟩ (some "2")).formError ≠ msgCodeDuplicate
    ∧ (handleAddInstitution [⟨⟨some "Escuela", some "XY12AB"⟩, "1"⟩]
        ⟨"", "XY12AB"⟩ (some "2")).formError = msgNameRequired := by
  decide

/-- C4 (amended): when the name and code-length validations pass and the
form code exactly equals an existing record's code, the add handler sets
the duplicate-code error, issues no remote write, and leaves the list
unchanged (modal still open). -/
theorem handleAddInstitution_duplicate (institutions : List FacultyCodeWithId)
    (formData : FormData) (remoteAdd : Option String)
    (hname : (jsTrim formData.institution).isEmpty = false)
    (hlen : ((jsTrim formData.facultyCode).isEmpty
              || jsLength formData.facultyCode != 6) = false)
    (hdup : ∃ r ∈ institutions, r.facultyCode = some formData.facultyCode) :
    handleAddInstitution institutions formData remoteAdd
      = ⟨institutions, msgCodeDuplicate, none, true⟩ := by
  obtain ⟨r, hr, hcode⟩ := hdup
  have hu : isCodeUnique institutions formData.facultyCode none = false := by
    rw [Bool.eq_false_iff]
    intro htrue
    have hx := (isCodeUnique_iff institutions formData.facultyCode none).mp htrue r hr hcode
    simp at hx
  simp [handleAddInstitution, hname, hlen, hu]

/-- C4 witness: the duplicate-rejection theorem applied to a concrete
list and form. -/
theorem handleAddInstitution_duplicate_witness :
    handleAddInstitution [⟨⟨some "Escuela", some "XY12AB"⟩, "1"⟩]
        ⟨"Colegio Norte", "XY12AB"⟩ (some "2")
      = ⟨[⟨⟨some "Escuela", some "XY12AB"⟩, "1"⟩], msgCodeDuplicate, none, true⟩ :=
  handleAddInstitution_duplicate _ _ _ (by decide) (by decide)
    ⟨⟨⟨some "Escuela", some "XY12AB"⟩, "1"⟩, by decide, by decide⟩

/-- C5: a validated add whose remote call returns docId appends (and
passes to the store) a record carrying the trimmed form name, the
uppercased form code, and exactly docId as id. -/
theorem handleAddInstitution_success (institutions : List FacultyCodeWithId)
    (formData : FormData) (docId : String)
    (hname : (jsTrim formData.institution).isEmpty = false)
    (hlen : ((jsTrim formData.facultyCode).isEmpty
              || jsLength formData.facultyCode != 6) = false)
    (huniq : isCodeUnique institutions formData.facultyCode none = true) :
    handleAddInstitution institutions formData (some docId)
      = ⟨institutions ++
           [⟨⟨some (jsTrim formData.institution),
              some (jsToUpper formData.facultyCode)⟩, docId⟩],
         "",
         some ⟨some (jsTrim formData.institution),
               some (jsToUpper formData.facultyCode)⟩,
         false⟩ := by
  simp [handleAddInstitution, hname, hlen, huniq]

/-- C5 witness: adding a form with name " Colegio Rioclaro " and code
"abc123" persists the trimmed name and the uppercased code "ABC123"
under the store-assigned id. -/
theorem handleAddInstitution_success_witness :
    handleAddInstitution [] ⟨" Colegio Rioclaro ", "abc123"⟩ (some "doc1")
      = ⟨[⟨⟨some "Colegio Rioclaro", some "ABC123"⟩, "doc1"⟩],
         "", some ⟨some "Colegio Rioclaro", some "ABC123"⟩, false⟩ :=
  (handleAddInstitution_success [] ⟨" Colegio Rioclaro ", "abc123"⟩ "doc1"
      (by decide) (by decide) (by decide)).trans (by decide)

end InstitutionsManagement
namespace InstitutionsManagement

/-- A record surviving the search filter belongs to the filtered list. -/
theorem mem_of_mem_filterInstitutions {r : FacultyCodeWithId}
    {l : List FacultyCodeWithId} {s : String}
    (h : r ∈ filterInstitutions l s) : r ∈ l := by
  unfold filterInstitutions at h
  split at h
  · exact h
  · exact List.mem_of_mem_filter h

/-- A record of a sorted view belongs to the list being sorted. -/
theorem mem_of_mem_sortInstitutions {r : FacultyCodeWithId}
    {cmp : String → String → Int} {l : List FacultyCodeWithId} {o : SortOption}
    (h : r ∈ sortInstitutions cmp l o) : r ∈ l := by
  cases o <;> simpa [sortInstitutions] using h

/-- C7: a successful delete leaves exactly the prior records whose id
differs from the selected record's id, closes the modal, and the deleted
id appears in no subsequent render (no filtered-and-sorted view of the
new list contains it). -/
theorem handleDeleteInstitution_success (institutions : List FacultyCodeWithId)
    (sel : FacultyCodeWithId) (search : String)
    (cmp : String → String → Int) (o : SortOption) :
    (handleDeleteInstitution institutions (some sel) true).institutions
      = institutions.filter (fun inst => decide (inst.id ≠ sel.id))
    ∧ (handleDeleteInstitution institutions (some sel) true).modalOpen = false
    ∧ ((sortInstitutions cmp (filterInstitutions
          (handleDeleteInstitution institutions (some sel) true).institutions search) o).all
        fun r => r.id != sel.id) = true := by
  refine ⟨List.filter_congr fun a _ => by by_cases h : a.id = sel.id <;> simp [h], rfl, ?_⟩
  rw [List.all_eq_true]
  intro r hr
  have hr2 : r ∈ institutions.filter (fun inst => inst.id != sel.id) :=
    mem_of_mem_filterInstitutions (mem_of_mem_sortInstitutions hr)
  exact (List.mem_filter.mp hr2).2

end InstitutionsManagement
namespace InstitutionsManagement

/-- C9: the duplicate scan with the record's own id as excludeId never
counts the record as a duplicate of itself: for a record whose code is
borne by no other record, isCodeUnique passes with the exclusion (while
it would fail without it, since the record itself carries the code), and
editing the record with its code unchanged never reports the
duplicate-code error. -/
theorem isCodeUnique_excludes_self (institutions : List FacultyCodeWithId)
    (r : FacultyCodeWithId) (c e0 name : String) (remoteUpdate : Bool)
    (hmem : r ∈ institutions) (hcode : r.facultyCode = some c)
    (hself : ∀ r' ∈ institutions, r'.facultyCode = some c → r'.id = r.id) :
    isCodeUnique institutions c (some r.id) = true
    ∧ isCodeUnique institutions c none = false
    ∧ (handleEditInstitution institutions e0 (some r) ⟨name, c⟩ remoteUpdate).formError
        ≠ msgCodeDuplicate := by
  have h1 : isCodeUnique institutions c (some r.id) = true :=
    (isCodeUnique_iff institutions c (some r.id)).mpr
      fun inst hinst hc => congrArg some (hself inst hinst hc)
  have h2 : isCodeUnique institutions c none = false := by
    rw [Bool.eq_false_iff]
    intro htrue
    have hx := (isCodeUnique_iff institutions c none).mp htrue r hmem hcode
    simp at hx
  refine ⟨h1, h2, ?_⟩
  unfold handleEditInstitution
  split
  · rename_i heq
    exact Option.noConfusion heq
  · rename_i sel heq
    injection heq with heq'
    subst heq'
    split
    · exact (by decide : msgNameRequired ≠ msgCodeDuplicate)
    split
    · exact (by decide : msgCodeLength ≠ msgCodeDuplicate)
    split
    · rename_i hdup
      simp at hdup
      rw [hdup] at h1
      simp at h1
    · cases remoteUpdate
      · exact (by decide : msgEditFailed ≠ msgCodeDuplicate)
      · exact (by decide : ("" : String) ≠ msgCodeDuplicate)
end InstitutionsManagement
namespace InstitutionsManagement

/-- C9 witness: the self-exclusion theorem applied to a concrete record
and list. -/
theorem isCodeUnique_excludes_self_witness :
    isCodeUnique [⟨⟨some "Alpha", some "AAAAAA"⟩, "1"⟩] "AAAAAA" (some "1") = true
    ∧ isCodeUnique [⟨⟨some "Alpha", some "AAAAAA"⟩, "1"⟩] "AAAAAA" none = false
    ∧ (handleEditInstitution [⟨⟨some "Alpha", some "AAAAAA"⟩, "1"⟩] ""
        (some ⟨⟨some "Alpha", some "AAAAAA"⟩, "1"⟩) ⟨"Alpha", "AAAAAA"⟩ true).formError
        ≠ msgCodeDuplicate :=
  isCodeUnique_excludes_self [⟨⟨some "Alpha", some "AAAAAA"⟩, "1"⟩]
    ⟨⟨some "Alpha", some "AAAAAA"⟩, "1"⟩ "AAAAAA" "" "Alpha" true
    (by decide) (by decide) (by decide)

/-- C1 counterexample: the loaded set has the single code "ABC123" and
the submitted form code "abc123" differs from it only in letter case.
The add handler completes successfully (the modal closes), yet the
updated list holds two records with code "ABC123": the raw form code is
what the duplicate scan compares, while the uppercased form code is what
is persisted. -/
theorem addInstitution_case_collision_counterexample :
    noDupCodes [⟨⟨some "Alpha", some "ABC123"⟩, "1"⟩]
    ∧ (handleAddInstitution [⟨⟨some "Alpha", some "ABC123"⟩, "1"⟩]
        ⟨"Beta", "abc123"⟩ (some "2")).modalOpen = false
    ∧ (handleAddInstitution [⟨⟨some "Alpha", some "ABC123"⟩, "1"⟩]
        ⟨"Beta", "abc123"⟩ (some "2")).formError = ""
    ∧ ¬ noDupCodes (handleAddInstitution [⟨⟨some "Alpha", some "ABC123"⟩, "1"⟩]
        ⟨"Beta", "abc123"⟩ (some "2")).institutions := by
  decide

/-- C1 (amended): provided the loaded records have pairwise-distinct
ids (they carry store-assigned identities) and the submitted form code
is already uppercase (which the form's input handlers enforce), every
completion of the add handler and of the edit handler — the successful
ones included — preserves the invariant that no two records share a
facultyCode. -/
theorem addEdit_preserve_noDupCodes (institutions : List FacultyCodeWithId)
    (formData : FormData) (remoteAdd : Option String) (e0 : String)
    (sel : FacultyCodeWithId) (remoteUpdate : Bool)
    (hids : institutions.Pairwise fun a b => a.id ≠ b.id)
    (hcodes : noDupCodes institutions)
    (hupper : jsToUpper formData.facultyCode = formData.facultyCode) :
    noDupCodes (handleAddInstitution institutions formData remoteAdd).institutions
    ∧ noDupCodes
        (handleEditInstitution institutions e0 (some sel) formData remoteUpdate).institutions := by
  constructor
  · by_cases h1 : (jsTrim formData.institution).isEmpty = true
    · simp [handleAddInstitution, h1]; exact hcodes
    by_cases h2 : ((jsTrim formData.facultyCode).isEmpty
        || jsLength formData.facultyCode != 6) = true
    · simp [handleAddInstitution, h1, h2]; exact hcodes
    by_cases h3 : isCodeUnique institutions formData.facultyCode none = true
    · have hforall := (isCodeUnique_iff institutions formData.facultyCode none).mp h3
      cases remoteAdd with
      | none => simp [handleAddInstitution, h1, h2, h3]; exact hcodes
      | some docId =>
        simp only [handleAddInstitution, h1, h2, h3]
        simp only [Bool.not_true, if_false, Bool.false_eq_true]
        unfold noDupCodes
        rw [List.pairwise_append]
        refine ⟨hcodes, List.pairwise_singleton _ _, ?_⟩
        intro a ha b hb
        simp only [List.mem_singleton] at hb
        subst hb
        simp only [hupper]
        intro hceq
        have hx := hforall a ha hceq
        simp at hx
    · have h3f : isCodeUnique institutions formData.facultyCode none = false := by
        simpa using h3
      simp [handleAddInstitution, h1, h2, h3f]; exact hcodes
  · by_cases h1 : (jsTrim formData.institution).isEmpty = true
    · simp [handleEditInstitution, h1]; exact hcodes
    by_cases h2 : ((jsTrim formData.facultyCode).isEmpty
        || jsLength formData.facultyCode != 6) = true
    · simp [handleEditInstitution, h1, h2]; exact hcodes
    by_cases h3 : isCodeUnique institutions formData.facultyCode (some sel.id) = true
    · have hforall := (isCodeUnique_iff institutions formData.facultyCode (some sel.id)).mp h3
      cases remoteUpdate with
      | false => simp [handleEditInstitution, h1, h2, h3]; exact hcodes
      | true =>
        simp only [handleEditInstitution, h1, h2, h3]
        simp only [Bool.not_true, if_false, if_true, Bool.false_eq_true]
        unfold noDupCodes
        rw [List.pairwise_map]
        refine (hids.and hcodes).imp_of_mem ?_
        intro a b ha hb hab
        obtain ⟨hid, hcd⟩ := hab
        by_cases ha' : a.id == sel.id <;> by_cases hb' : b.id == sel.id
        · exact absurd ((eq_of_beq ha').trans (eq_of_beq hb').symm) hid
        · simp only [ha', hb', if_true, if_false]
          simp only [hupper]
          intro hceq
          have hbcode : b.facultyCode = some formData.facultyCode := hceq.symm
          have hbid := hforall b hb hbcode
          simp at hbid
          exact absurd hbid (by simpa using hb')
        · simp only [ha', hb', if_true, if_false]
          simp only [hupper]
          intro hceq
          have hacode : a.facultyCode = some formData.facultyCode := hceq
          have haid := hforall a ha hacode
          simp at haid
          exact absurd haid (by simpa using ha')
        · simp only [ha', hb', if_false]
          exact hcd
    · have h3f : isCodeUnique institutions formData.facultyCode (some sel.id) = false := by
        simpa using h3
      cases remoteUpdate <;> simp [handleEditInstitution, h1, h2, h3f] <;> exact hcodes

end InstitutionsManagement
namespace InstitutionsManagement

/-- C1 witness: the preservation theorem applied to a concrete list, a
fresh uppercase form code, and a selected record. -/
theorem addEdit_preserve_noDupCodes_witness :
    noDupCodes (handleAddInstitution [⟨⟨some "Alpha", some "ABC123"⟩, "1"⟩]
        ⟨"Beta", "XYZ789"⟩ (some "2")).institutions
    ∧ noDupCodes (handleEditInstitution [⟨⟨some "Alpha", some "ABC123"⟩, "1"⟩] ""
        (some ⟨⟨some "Alpha", some "ABC123"⟩, "1"⟩) ⟨"Beta", "XYZ789"⟩ true).institutions :=
  addEdit_preserve_noDupCodes [⟨⟨some "Alpha", some "ABC123"⟩, "1"⟩] ⟨"Beta", "XYZ789"⟩
    (some "2") "" ⟨⟨some "Alpha", some "ABC123"⟩, "1"⟩ true
    (by decide) (by decide) (by decide)

end InstitutionsManagement
